import Mathlib

/-!
Verification development for the Muon file system (Rust sources under src/).

The Rust code is shallowly embedded: machine integers become `Nat`
(with explicit checks where overflow or underflow matters), fallible
operations return the `PRes` result type below, and the block device is
modelled as a typed store (`Disk`): the two allocation bitmaps as
`Nat → Bool` indexed by the same linear bit index the Rust scan uses,
the inode table as `Nat → Inode` indexed by inode id, and all remaining
block content (directory blocks, indirect pointer blocks, file data) as
raw little-endian bytes `Nat → Nat → Nat` (block id → offset → byte),
exactly as the Rust code lays them out.

Unsigned subtractions are modelled as checked (`subU`): an underflow is a
`panicked` outcome, matching the overflow-checked (debug) builds the
crate's own test suite runs under.  `assert!` and `panic!` in the source
also map to `panicked`.
-/

namespace Muon

/-! ## Config constants (src/config.rs) -/

def MAGIC : Nat := 0x4D554F4E

def BLOCK_SIZE : Nat := 512

def SUPERBLOCK_ID : Nat := 0

/-- Value taken verbatim from src/config.rs line 5: `pub const ROOT_INODE_ID: u32 = 0;`. -/
def ROOT_INODE_ID : Nat := 0

def INODE_SIZE : Nat := 128

def MAX_FILE_NAME_LEN : Nat := 64 - 4

def DIR_ENTRY_SIZE : Nat := 64

def NUM_ENTRY_PER_BLOCK : Nat := BLOCK_SIZE / DIR_ENTRY_SIZE

def NUM_DIRECT_PTRS : Nat := 12

def PTRS_PER_BLOCK : Nat := BLOCK_SIZE / 4

/-- Modelled from the spec: the constant `SYMLOOP_MAX` is imported by
src/path.rs but missing from src/config.rs; the spec suggests 40. -/
def SYMLOOP_MAX : Nat := 40

/-! ## Error and result types (src/error.rs) -/

inductive FsError where
  | IoError
  | InvalidMagic
  | OutOfSpace
  | OutOfInodes
  | OutOfBounds
  | CacheMiss
  | CacheEvict (block_id : Nat)
  | PermissionDenied
  | InvalidSuperBlock
  | InvalidBlockId
  | InvalidPath
  | InvalidFileType
  | InvalidArgument
  | FileTooLarge
  | PathTooLong
  | InvalidFileName
  | ReadError
  | WriteError
  | NotFound
  | AlreadyExists
  | DirNotEmpty
  | NotDirectory
  | NotRegular
  | NotSymlink
  | NotReadable
  | NotWritable
  | NotEmpty
deriving DecidableEq

/-- Result of running a piece of embedded Rust code: the `Result` value,
a Rust panic (`assert!`, arithmetic overflow check, explicit `panic!`),
or exhaustion of the structural fuel some loops are driven by (an
embedding artifact, proved unreachable where it matters). -/
inductive PRes (α : Type) where
  | ok (a : α)
  | err (e : FsError)
  | panicked
  | nofuel
deriving DecidableEq

def PRes.bind {α β : Type} : PRes α → (α → PRes β) → PRes β
  | .ok a, f => f a
  | .err e, _ => .err e
  | .panicked, _ => .panicked
  | .nofuel, _ => .nofuel

instance : Monad PRes where
  pure := PRes.ok
  bind := PRes.bind

def PRes.isOk {α : Type} : PRes α → Bool
  | .ok _ => true
  | _ => false

def PRes.isPanicked {α : Type} : PRes α → Bool
  | .panicked => true
  | _ => false

def PRes.errOf {α : Type} : PRes α → Option FsError
  | .err e => some e
  | _ => none

def PRes.getD {α : Type} : PRes α → α → α
  | .ok a, _ => a
  | _, dflt => dflt

/-- Checked unsigned subtraction: Rust `a - b` on `u32`/`usize`/`u64`
panics when `a < b` under the overflow-checked builds the crate's tests
use (a release build would wrap instead). -/
def subU (a b : Nat) : PRes Nat :=
  if a < b then .panicked else .ok (a - b)

/-! ## Data model (src/structs.rs) -/

inductive FileType where
  | Regular
  | Directory
  | Symlink
  | Special
deriving DecidableEq

inductive Mode where
  | Read
  | Write
  | Execute
  | RW
  | RE
  | RWE
  | None
deriving DecidableEq

/-- Inode record.  src/structs.rs stores the payload as a union of block
pointers and a symlink path buffer, gated by accessors on `ftype`;
src/inode.rs accesses `direct_ptrs` and `indirect_ptr` as plain fields.
The embedding carries both payload views as fields; the accessors below
keep the `ftype` gating of the source. The symlink path buffer is carried
as the `String` the source recovers from it via `trim_zero` +
`String::from_utf8_lossy`. -/
structure Inode where
  ftype : FileType
  mode : Mode
  id : Nat
  blocks : Nat
  links_cnt : Nat
  size : Nat
  direct_ptrs : List (Option Nat)
  indirect_ptr : Option Nat
  sym_path : String
deriving DecidableEq

def Inode.ZERO : Inode :=
  { ftype := .Regular
    mode := .None
    id := 0
    blocks := 0
    links_cnt := 0
    size := 0
    direct_ptrs := List.replicate NUM_DIRECT_PTRS none
    indirect_ptr := none
    sym_path := "" }

/-- Accessor `Inode::get_path` restricted to what callers use: the
symlink target as a string (the source returns the raw 104-byte buffer
and the caller trims and converts it). -/
def Inode.get_path (inode : Inode) : PRes String :=
  if inode.ftype ≠ .Symlink then .err .NotSymlink else pure inode.sym_path

structure DirEntry where
  inode_id : Nat
  name : List Nat
deriving DecidableEq

def DirEntry.NULL : DirEntry :=
  { inode_id := 0, name := List.replicate MAX_FILE_NAME_LEN 0 }

def DirEntry.new (inode_id : Nat) (name : List Nat) : PRes DirEntry :=
  if name.length = 0 ∨ name.length > MAX_FILE_NAME_LEN then .err .InvalidFileName
  else .ok { inode_id := inode_id
             name := name ++ List.replicate (MAX_FILE_NAME_LEN - name.length) 0 }

structure SuperBlock where
  magic : Nat
  num_blocks : Nat
  block_size : Nat
  free_blocks : Nat
  num_inodes : Nat
  free_inodes : Nat
  root_inode : Nat
  data_bitmap_start : Nat
  data_bitmap_blocks : Nat
  inode_bitmap_start : Nat
  inode_bitmap_blocks : Nat
  inode_table_start : Nat
  inode_table_blocks : Nat
  data_start : Nat
deriving DecidableEq

/-- Typed view of the block device.  The two bitmaps use the linear bit
index `block_in_region * 4096 + byte * 8 + bit` that the Rust scan
enumerates; the inode table is indexed by inode id (the Rust block and
in-block offset arithmetic is a bijection onto ids); every other block is
kept as raw bytes. -/
structure Disk where
  dataBitmap : Nat → Bool
  inodeBitmap : Nat → Bool
  inodes : Nat → Inode
  bytes : Nat → Nat → Nat

/-! ## Little-endian byte helpers for raw blocks -/

/-- Read the `idx`-th little-endian u32 of block `b`, as
`core::slice::from_raw_parts(buf as *mut u32, PTRS_PER_BLOCK)` does. -/
def readU32 (bytes : Nat → Nat → Nat) (b idx : Nat) : Nat :=
  bytes b (4 * idx) + 256 * bytes b (4 * idx + 1) +
    65536 * bytes b (4 * idx + 2) + 16777216 * bytes b (4 * idx + 3)

def writeU32 (bytes : Nat → Nat → Nat) (b idx v : Nat) : Nat → Nat → Nat :=
  fun b2 o2 =>
    if b2 = b then
      if o2 = 4 * idx then v % 256
      else if o2 = 4 * idx + 1 then v / 256 % 256
      else if o2 = 4 * idx + 2 then v / 65536 % 256
      else if o2 = 4 * idx + 3 then v / 16777216 % 256
      else bytes b2 o2
    else bytes b2 o2

/-- Byte `k` of the 64-byte on-disk form of a directory entry:
a little-endian u32 `inode_id` followed by the 60-byte name. -/
def entryByte (e : DirEntry) (k : Nat) : Nat :=
  if k = 0 then e.inode_id % 256
  else if k = 1 then e.inode_id / 256 % 256
  else if k = 2 then e.inode_id / 65536 % 256
  else if k = 3 then e.inode_id / 16777216 % 256
  else e.name.getD (k - 4) 0

/-- Decode directory entry `j` of block `b` (offset `j * DIR_ENTRY_SIZE`). -/
def readDirEntry (bytes : Nat → Nat → Nat) (b j : Nat) : DirEntry :=
  { inode_id := readU32 bytes b (16 * j)
    name := (List.range MAX_FILE_NAME_LEN).map
      (fun i => bytes b (DIR_ENTRY_SIZE * j + 4 + i)) }

/-- Overwrite directory entry `j` of block `b` with `e` (the Rust code
copies the entry into the block buffer and writes the block back). -/
def writeDirEntry (bytes : Nat → Nat → Nat) (b j : Nat) (e : DirEntry) : Nat → Nat → Nat :=
  fun b2 o2 =>
    if b2 = b ∧ DIR_ENTRY_SIZE * j ≤ o2 ∧ o2 < DIR_ENTRY_SIZE * j + DIR_ENTRY_SIZE then
      entryByte e (o2 - DIR_ENTRY_SIZE * j)
    else bytes b2 o2

/-- Content of a block holding the given directory entries in order,
remaining slots empty (freshly allocated blocks are zeroed). -/
def dirBlockBytes (entries : List DirEntry) : Nat → Nat :=
  fun off => entryByte (entries.getD (off / DIR_ENTRY_SIZE) DirEntry.NULL) (off % DIR_ENTRY_SIZE)

/-- In-place array update, `arr[i] = a` (index always in bounds at use sites). -/
def listSet {α : Type} : List α → Nat → α → List α
  | [], _, _ => []
  | _ :: xs, 0, a => a :: xs
  | x :: xs, n + 1, a => x :: listSet xs n a

/-- Rust `dst[at..at+src.len()].copy_from_slice(src)` on byte buffers. -/
def listCopyAt (dst : List Nat) (start : Nat) (src : List Nat) : List Nat :=
  dst.take start ++ src ++ dst.drop (start + src.length)

/-- Bytes of a string, one `Nat` per character (paths and names here are ASCII). -/
def strName (s : String) : List Nat := s.data.map (fun c => c.toNat)

/-! ## Bitmap allocator (src/bitmap.rs) -/

/-- Scan of `set_first_fit_bit`: the triple loop over blocks, bytes and
bits enumerates exactly the linear indices `0, 1, 2, ...` up to
`bitmap_blocks * BLOCK_SIZE * 8`; at each index it first checks
`current_item_id >= total_items` (error `OutOfBounds`), then tests the
bit against `value`; exhausting the blocks yields `NotFound`. -/
def set_first_fit_loop (bm : Nat → Bool) (total_items : Nat) (value : Bool) :
    Nat → Nat → PRes Nat
  | _, 0 => .err .NotFound
  | idx, remaining + 1 =>
    if idx ≥ total_items then .err .OutOfBounds
    else if bm idx ≠ value then .ok idx
    else set_first_fit_loop bm total_items value (idx + 1) remaining

/-- Embedding of `set_first_fit_bit`: returns the updated bitmap and the found index
(the source flips the bit in the block buffer and writes the block back). -/
def set_first_fit_bit (bm : Nat → Bool) (_bitmap_start bitmap_blocks total_items : Nat)
    (value : Bool) : PRes ((Nat → Bool) × Nat) :=
  match set_first_fit_loop bm total_items value 0 (bitmap_blocks * (BLOCK_SIZE * 8)) with
  | .ok idx => .ok ((fun i => if i = idx then value else bm i), idx)
  | .err e => .err e
  | .panicked => .panicked
  | .nofuel => .nofuel

/-- Embedding of `set_bit_at`: bounds checks, then a read-modify-write of the single
bit (the source's block, byte and bit offsets recombine to the linear
index `item_id`).  Returns the updated bitmap and the prior bit value. -/
def set_bit_at (bm : Nat → Bool) (_bitmap_start bitmap_blocks item_id total_items : Nat)
    (set_value : Bool) : PRes ((Nat → Bool) × Bool) :=
  if item_id ≥ total_items then .err .OutOfBounds
  else
    let block_id := item_id / (BLOCK_SIZE * 8)
    if block_id ≥ bitmap_blocks then .err .OutOfBounds
    else .ok ((fun i => if i = item_id then set_value else bm i), bm item_id)

/-- Embedding of `alloc_data_block`: first-fit search over the data bitmap (whose items
are the `num_blocks - data_start` data-region blocks), decrement
`free_blocks`, persist the superblock (the in-memory copy is the
authoritative one in this model), zero the allocated block, and return
its absolute block id `index + data_start`. -/
def alloc_data_block (d : Disk) (sb : SuperBlock) : PRes (Disk × SuperBlock × Nat) := do
  let total ← subU sb.num_blocks sb.data_start
  let (bm, block_id) ← set_first_fit_bit d.dataBitmap sb.data_bitmap_start
    sb.data_bitmap_blocks total true
  let fb ← subU sb.free_blocks 1
  let sb2 := { sb with free_blocks := fb }
  let d2 := { d with
    dataBitmap := bm
    bytes := fun b2 o2 => if b2 = block_id + sb2.data_start then 0 else d.bytes b2 o2 }
  pure (d2, sb2, block_id + sb2.data_start)

/-- Embedding of `free_data_block`.  The source computes
`relative_block_id = block_id - superblock.data_start` *before* the
bounds test, so for `block_id < data_start` the u32 subtraction
underflows (a panic under overflow checks); the `||` in the bounds test
short-circuits, so the second operand is only evaluated when
`block_id ≥ data_start`. -/
def free_data_block (d : Disk) (sb : SuperBlock) (block_id : Nat) : PRes (Disk × SuperBlock) := do
  let relative_block_id ← subU block_id sb.data_start
  if block_id < sb.data_start then .err .OutOfBounds
  else do
    let limit ← subU sb.num_blocks sb.data_start
    if relative_block_id ≥ limit then .err .OutOfBounds
    else do
      let (bm, _pre) ← set_bit_at d.dataBitmap sb.data_bitmap_start sb.data_bitmap_blocks
        relative_block_id limit false
      pure ({ d with dataBitmap := bm }, { sb with free_blocks := sb.free_blocks + 1 })

/-- Embedding of `alloc_inode_id`: first-fit over the inode bitmap, decrement `free_inodes`. -/
def alloc_inode_id (d : Disk) (sb : SuperBlock) : PRes (Disk × SuperBlock × Nat) := do
  let (bm, inode_id) ← set_first_fit_bit d.inodeBitmap sb.inode_bitmap_start
    sb.inode_bitmap_blocks sb.num_inodes true
  let fi ← subU sb.free_inodes 1
  pure ({ d with inodeBitmap := bm }, { sb with free_inodes := fi }, inode_id)

/-- Embedding of `free_inode_id`: clear the bit, increment `free_inodes`. -/
def free_inode_id (d : Disk) (sb : SuperBlock) (inode_id : Nat) : PRes (Disk × SuperBlock) := do
  let (bm, _pre) ← set_bit_at d.inodeBitmap sb.inode_bitmap_start sb.inode_bitmap_blocks
    inode_id sb.num_inodes false
  pure ({ d with inodeBitmap := bm }, { sb with free_inodes := sb.free_inodes + 1 })

/-! ## Superblock (src/superblock.rs) -/

/-- Embedding of `SuperBlock::new` with the layout arithmetic exactly as written:
note `data_bitmap_blocks = (num_blocks + 7) / 8` and
`inode_bitmap_blocks = (num_inodes + 7) / 8` (the source comments that
this is "not a precise calculation"). -/
def SuperBlock.new (num_blocks num_inodes : Nat) : PRes SuperBlock :=
  if num_blocks = 0 ∨ num_inodes = 0 then .err .InvalidSuperBlock
  else
    let data_bitmap_start := SUPERBLOCK_ID + 1
    let data_bitmap_blocks := (num_blocks + 7) / 8
    let inode_bitmap_start := data_bitmap_start + data_bitmap_blocks
    let inode_bitmap_blocks := (num_inodes + 7) / 8
    let inode_table_start := inode_bitmap_start + inode_bitmap_blocks
    let inodes_per_block := BLOCK_SIZE / INODE_SIZE
    let inode_table_blocks := (num_inodes + inodes_per_block - 1) / inodes_per_block
    let data_start := inode_table_start + inode_table_blocks
    if num_blocks ≤ data_start then .err .InvalidSuperBlock
    else .ok
      { magic := MAGIC
        num_blocks := num_blocks
        block_size := BLOCK_SIZE
        free_blocks := num_blocks - data_start
        num_inodes := num_inodes
        free_inodes := num_inodes
        root_inode := ROOT_INODE_ID
        data_bitmap_start := data_bitmap_start
        data_bitmap_blocks := data_bitmap_blocks
        inode_bitmap_start := inode_bitmap_start
        inode_bitmap_blocks := inode_bitmap_blocks
        inode_table_start := inode_table_start
        inode_table_blocks := inode_table_blocks
        data_start := data_start }

/-! ## Inode table operations and bmap (src/inode.rs) -/

/-- Embedding of `get_inode`: bounds check against `num_inodes`, then read the record
(the table block and in-block offset arithmetic is a bijection onto ids
in the typed model). -/
def get_inode (d : Disk) (sb : SuperBlock) (inode_id : Nat) : PRes Inode :=
  if inode_id ≥ sb.num_inodes then .err .OutOfBounds
  else pure (d.inodes inode_id)

/-- Embedding of `write_inode`: read-modify-write of the hosting table block, i.e.
a point update of the slot `inode.id`. -/
def write_inode (d : Disk) (_sb : SuperBlock) (inode : Inode) : PRes Disk :=
  pure { d with inodes := fun i => if i = inode.id then inode else d.inodes i }

/-- Embedding of `alloc_inode`.  The source's struct literal sets `blocks = 0`,
`links_cnt = 0`, `size = 0` and empty pointers; it omits the `mode`
field its own `Inode` type requires (the snapshot does not compile as
written), so the `mode` parameter is applied as the signature intends. -/
def alloc_inode (d : Disk) (sb : SuperBlock) (ftype : FileType) (mode : Mode) :
    PRes (Disk × SuperBlock × Inode) := do
  let (d1, sb1, id) ← alloc_inode_id d sb
  let inode : Inode :=
    { ftype := ftype
      mode := mode
      id := id
      blocks := 0
      links_cnt := 0
      size := 0
      direct_ptrs := List.replicate NUM_DIRECT_PTRS none
      indirect_ptr := none
      sym_path := "" }
  let d2 ← write_inode d1 sb1 inode
  pure (d2, sb1, inode)

/-- Loop of `free_inode` over the direct pointers. -/
def free_inode_direct_loop : List (Option Nat) → Disk → SuperBlock → PRes (Disk × SuperBlock)
  | [], d, sb => pure (d, sb)
  | none :: rest, d, sb => free_inode_direct_loop rest d sb
  | some block_id :: rest, d, sb => do
    let (d1, sb1) ← free_data_block d sb block_id
    free_inode_direct_loop rest d1 sb1

/-- Loop of `free_inode` over the pointers stored in the indirect block
(the buffer is read once, before any of these frees). -/
def free_inode_ptrs_loop : List Nat → Disk → SuperBlock → PRes (Disk × SuperBlock)
  | [], d, sb => pure (d, sb)
  | block_id :: rest, d, sb =>
    if block_id ≠ 0 then do
      let (d1, sb1) ← free_data_block d sb block_id
      free_inode_ptrs_loop rest d1 sb1
    else free_inode_ptrs_loop rest d sb

/-- Embedding of `free_inode`: free every present direct block, then every non-zero
pointer of the indirect block and the indirect block itself, clear the
inode bitmap bit, zero the table slot, and return the freed record. -/
def free_inode (d : Disk) (sb : SuperBlock) (inode_id : Nat) :
    PRes (Disk × SuperBlock × Inode) := do
  let inode ← get_inode d sb inode_id
  let (d1, sb1) ← free_inode_direct_loop inode.direct_ptrs d sb
  let (d2, sb2) ←
    match inode.indirect_ptr with
    | none => pure (d1, sb1)
    | some indirect_ptr => do
      let ptrs := (List.range PTRS_PER_BLOCK).map (fun k => readU32 d1.bytes indirect_ptr k)
      let (da, sba) ← free_inode_ptrs_loop ptrs d1 sb1
      free_data_block da sba indirect_ptr
  let (d3, sb3) ← free_inode_id d2 sb2 inode_id
  let d4 ← write_inode d3 sb3 { Inode.ZERO with id := inode_id }
  pure (d4, sb3, inode)

/-- Embedding of `bmap`: translate a block-aligned file offset to a data block id,
allocating on demand when `create`.  When `create` and
`file_offset >= inode.size`, the size is first extended to
`file_offset + 1` and `blocks` recomputed as `ceil(size / BLOCK_SIZE)`;
a subsequent allocation then increments `blocks` once more.  Returns the
possibly updated device, superblock and inode (the Rust `&mut` values)
together with the block id. -/
def bmap (d : Disk) (sb : SuperBlock) (inode0 : Inode) (file_offset : Nat) (create : Bool) :
    PRes (Disk × SuperBlock × Inode × Nat) :=
  if file_offset % BLOCK_SIZE ≠ 0 then .err .InvalidArgument
  else
    let block_offset := file_offset / BLOCK_SIZE
    let inode :=
      if create ∧ file_offset ≥ inode0.size then
        { inode0 with
          size := file_offset + 1
          blocks := (file_offset + 1 + (BLOCK_SIZE - 1)) / BLOCK_SIZE }
      else inode0
    if block_offset < NUM_DIRECT_PTRS then
      match inode.direct_ptrs.getD block_offset none with
      | some block_id => .ok (d, sb, inode, block_id)
      | none =>
        if create then do
          let (d1, sb1, block_id) ← alloc_data_block d sb
          let inode1 :=
            { inode with
              direct_ptrs := listSet inode.direct_ptrs block_offset (some block_id)
              blocks := inode.blocks + 1 }
          let d2 ← write_inode d1 sb1 inode1
          pure (d2, sb1, inode1, block_id)
        else .err .OutOfBounds
    else
      let indirect_offset := block_offset - NUM_DIRECT_PTRS
      if indirect_offset < PTRS_PER_BLOCK then do
        let (d1, sb1, inode1, indirect_block_id) ←
          match inode.indirect_ptr with
          | some indirect_block_id => pure (d, sb, inode, indirect_block_id)
          | none =>
            if create then do
              let (da, sba, indirect_block_id) ← alloc_data_block d sb
              pure (da, sba, { inode with indirect_ptr := some indirect_block_id },
                indirect_block_id)
            else .err .OutOfBounds
        let data_block_id := readU32 d1.bytes indirect_block_id indirect_offset
        if data_block_id = 0 then
          if create then do
            let (d2, sb2, data_block_id2) ← alloc_data_block d1 sb1
            let inode2 := { inode1 with blocks := inode1.blocks + 1 }
            let d3 ← write_inode d2 sb2 inode2
            -- writing the updated pointer slot back equals the source's
            -- whole-buffer write-back: the freshly zeroed data block is a
            -- different block than the indirect one
            let d4 := { d3 with
              bytes := writeU32 d3.bytes indirect_block_id indirect_offset data_block_id2 }
            pure (d4, sb2, inode2, data_block_id2)
          else .err .OutOfBounds
        else pure (d1, sb1, inode1, data_block_id)
      else .err .FileTooLarge

/-! ## Directory operations (src/directory.rs) -/

def DOT_NAME : List Nat := strName "."

def DOTDOT_NAME : List Nat := strName ".."

/-- Embedding of `trim_zero`: strip trailing zero bytes. -/
def trim_zero (name : List Nat) : List Nat :=
  ((name.reverse).dropWhile (fun c => c = 0)).reverse

/-- Elementwise loop of `name_cmp` (run on the two trimmed names, whose
lengths are equal): unequal bytes fail, and an equal zero byte ends the
comparison early with success exactly as the source's early `break` does. -/
def name_cmp_loop : List Nat → List Nat → Bool
  | a :: as2, b :: bs2 =>
    if a ≠ b then false
    else if a = 0 then true
    else name_cmp_loop as2 bs2
  | _, _ => true

def name_cmp (n1 n2 : List Nat) : Bool :=
  let nn1 := trim_zero n1
  let nn2 := trim_zero n2
  if nn1.length ≠ nn2.length then false else name_cmp_loop nn1 nn2

def name_is_empty (name : List Nat) : Bool := name.all (fun c => c = 0)

def DirEntry.is_empty (e : DirEntry) : Bool := e.inode_id = 0 && name_is_empty e.name

/-- Slot loop of `dir_lookup` inside one block: skips `inode_id == 0`
slots without counting them, counts every other slot against
`num_dirents`, and returns the first name match. -/
def dir_lookup_slots (bytes : Nat → Nat → Nat) (block_id : Nat) (name : List Nat)
    (num_dirents : Nat) : Nat → Nat → Nat → Option Nat × Nat
  | 0, _, n => (none, n)
  | remaining + 1, j, n =>
    if n ≥ num_dirents then (none, n)
    else
      let entry := readDirEntry bytes block_id j
      if entry.inode_id = 0 then dir_lookup_slots bytes block_id name num_dirents remaining (j + 1) n
      else if name_cmp entry.name name then (some entry.inode_id, n + 1)
      else dir_lookup_slots bytes block_id name num_dirents remaining (j + 1) (n + 1)

/-- Block loop of `dir_lookup`: `bmap` each of the inode's blocks with
`create = false` and scan its slots. -/
def dir_lookup_blocks (name : List Nat) (num_dirents : Nat) :
    Nat → Nat → Nat → Disk → SuperBlock → Inode → PRes Nat
  | 0, _, _, _, _, _ => .err .NotFound
  | remaining + 1, i, n, d, sb, inode => do
    let (d1, sb1, inode1, block_id) ← bmap d sb inode (i * BLOCK_SIZE) false
    match dir_lookup_slots d1.bytes block_id name num_dirents NUM_ENTRY_PER_BLOCK 0 n with
    | (some found_id, _) => pure found_id
    | (none, n1) => dir_lookup_blocks name num_dirents remaining (i + 1) n1 d1 sb1 inode1

/-- Embedding of `dir_lookup`.  With `create = false` the inner `bmap` calls never
modify the device, superblock or inode, so only the found id is
returned, as in the source. -/
def dir_lookup (d : Disk) (sb : SuperBlock) (parent_inode : Inode) (name : List Nat) :
    PRes Nat :=
  if parent_inode.ftype ≠ .Directory then .err .NotDirectory
  else if name.length > MAX_FILE_NAME_LEN then .err .InvalidFileName
  else dir_lookup_blocks name (parent_inode.size / DIR_ENTRY_SIZE)
    parent_inode.blocks 0 0 d sb parent_inode

/-- Slot loop of the empty-slot search of `dir_add_entry`: unlike the
lookup scan it visits every slot of the block (no `num_dirents` bound)
and matches `inode_id == 0 && name empty`; returns the slot offset. -/
def dir_add_slot_scan (bytes : Nat → Nat → Nat) (block_id : Nat) : Nat → Nat → Option Nat
  | 0, _ => none
  | remaining + 1, j =>
    let dirent := readDirEntry bytes block_id j
    if dirent.inode_id = 0 ∧ name_is_empty dirent.name then some (j * DIR_ENTRY_SIZE)
    else dir_add_slot_scan bytes block_id remaining (j + 1)

/-- Block loop of the empty-slot search of `dir_add_entry` (the
`block_id_to_write = 0` sentinel of the source becomes an `Option`:
block 0 is the superblock and never a data block). -/
def dir_add_find_slot : Nat → Nat → Disk → SuperBlock → Inode →
    PRes (Option (Nat × Nat) × Disk × SuperBlock × Inode)
  | 0, _, d, sb, inode => pure (none, d, sb, inode)
  | remaining + 1, i, d, sb, inode => do
    let (d1, sb1, inode1, block_id) ← bmap d sb inode (i * BLOCK_SIZE) false
    match dir_add_slot_scan d1.bytes block_id NUM_ENTRY_PER_BLOCK 0 with
    | some off => pure (some (block_id, off), d1, sb1, inode1)
    | none => dir_add_find_slot remaining (i + 1) d1 sb1 inode1

/-- Embedding of `dir_add_entry`: reject non-directories and duplicate names (any
error of the duplicate lookup is swallowed by the source's
`if let Ok(_)`, except a panic, which propagates); reuse the first empty
slot, setting `size = prev_size + DIR_ENTRY_SIZE` and asserting that
`ceil(size / BLOCK_SIZE)` still equals `blocks`; otherwise append via
`bmap(prev_size, create = true)` and set
`size = (num_dirents + 1) * DIR_ENTRY_SIZE`. -/
def dir_add_entry (d : Disk) (sb : SuperBlock) (parent_inode : Inode) (child_entry : DirEntry) :
    PRes (Disk × SuperBlock × Inode) :=
  if parent_inode.ftype ≠ .Directory then .err .NotDirectory
  else
    match dir_lookup d sb parent_inode child_entry.name with
    | .ok _ => .err .AlreadyExists
    | .panicked => .panicked
    | .nofuel => .nofuel
    | .err _ => do
      let prev_size := parent_inode.size
      let num_dirents := prev_size / DIR_ENTRY_SIZE
      let (slot, d1, sb1, inode1) ← dir_add_find_slot parent_inode.blocks 0 d sb parent_inode
      match slot with
      | some (block_id, off) => do
        let inode2 := { inode1 with size := prev_size + DIR_ENTRY_SIZE }
        let new_blocks := (inode2.size + (BLOCK_SIZE - 1)) / BLOCK_SIZE
        if new_blocks ≠ inode2.blocks then .panicked
        else do
          let d2 ← write_inode d1 sb1 inode2
          let d3 := { d2 with
            bytes := writeDirEntry d2.bytes block_id (off / DIR_ENTRY_SIZE) child_entry }
          pure (d3, sb1, inode2)
      | none => do
        let (d2, sb2, inode2, block_id) ← bmap d1 sb1 inode1 prev_size true
        let off := prev_size % BLOCK_SIZE
        let inode3 := { inode2 with size := (num_dirents + 1) * DIR_ENTRY_SIZE }
        let d3 ← write_inode d2 sb2 inode3
        let d4 := { d3 with
          bytes := writeDirEntry d3.bytes block_id (off / DIR_ENTRY_SIZE) child_entry }
        pure (d4, sb2, inode3)

/-- Slot loop of the scan of `dir_rm_entry` (same counting discipline as
the lookup scan); returns the matching slot offset and its inode id. -/
def dir_rm_slots (bytes : Nat → Nat → Nat) (block_id : Nat) (name : List Nat)
    (num_dirents : Nat) : Nat → Nat → Nat → Option (Nat × Nat) × Nat
  | 0, _, n => (none, n)
  | remaining + 1, j, n =>
    if n ≥ num_dirents then (none, n)
    else
      let entry := readDirEntry bytes block_id j
      if entry.inode_id = 0 then dir_rm_slots bytes block_id name num_dirents remaining (j + 1) n
      else if name_cmp entry.name name then (some (j * DIR_ENTRY_SIZE, entry.inode_id), n + 1)
      else dir_rm_slots bytes block_id name num_dirents remaining (j + 1) (n + 1)

/-- Block loop of the scan of `dir_rm_entry`. -/
def dir_rm_find (name : List Nat) (num_dirents : Nat) :
    Nat → Nat → Nat → Disk → SuperBlock → Inode →
    PRes (Option (Nat × Nat × Nat) × Disk × SuperBlock × Inode)
  | 0, _, _, d, sb, inode => pure (none, d, sb, inode)
  | remaining + 1, i, n, d, sb, inode => do
    let (d1, sb1, inode1, block_id) ← bmap d sb inode (i * BLOCK_SIZE) false
    match dir_rm_slots d1.bytes block_id name num_dirents NUM_ENTRY_PER_BLOCK 0 n with
    | (some (off, id), _) => pure (some (block_id, off, id), d1, sb1, inode1)
    | (none, n1) => dir_rm_find name num_dirents remaining (i + 1) n1 d1 sb1 inode1

/-- Embedding of `dir_rm_entry`: find the entry by name, overwrite its slot with the
NULL entry, decrement `parent.size` by `DIR_ENTRY_SIZE`, persist the
inode and the block.  Rejects `.` and `..` by name.  Returns the updated
state, the updated parent inode and the removed entry's inode id. -/
def dir_rm_entry (d : Disk) (sb : SuperBlock) (parent_inode : Inode) (name : List Nat) :
    PRes (Disk × SuperBlock × Inode × Nat) :=
  if parent_inode.ftype ≠ .Directory then .err .NotDirectory
  else if name.length = 0 ∨ name.length > MAX_FILE_NAME_LEN then .err .InvalidFileName
  else if name_cmp name DOT_NAME ∨ name_cmp name DOTDOT_NAME then .err .InvalidFileName
  else do
    let num_dirents := parent_inode.size / DIR_ENTRY_SIZE
    let (found, d1, sb1, inode1) ← dir_rm_find name num_dirents
      parent_inode.blocks 0 0 d sb parent_inode
    match found with
    | none => .err .NotFound
    | some (block_id, off, removed_id) => do
      let size1 ← subU inode1.size DIR_ENTRY_SIZE
      let inode2 := { inode1 with size := size1 }
      let d2 ← write_inode d1 sb1 inode2
      let d3 := { d2 with
        bytes := writeDirEntry d2.bytes block_id (off / DIR_ENTRY_SIZE) DirEntry.NULL }
      pure (d3, sb1, inode2, removed_id)

/-- Embedding of `dir_is_empty`: true iff `size / DIR_ENTRY_SIZE == 2`; fewer than two
entries is a corruption signal and panics. -/
def dir_is_empty (_d : Disk) (_sb : SuperBlock) (dir_inode : Inode) : PRes Bool :=
  if dir_inode.ftype ≠ .Directory then .err .NotDirectory
  else
    let num_dirents := dir_inode.size / DIR_ENTRY_SIZE
    if num_dirents = 2 then pure true
    else if num_dirents < 2 then .panicked
    else pure false

/-! ## Path resolution (src/path.rs) -/

/-- True iff the path begins with a slash (`str::starts_with('/')`). -/
def startsWithSlash (s : String) : Bool :=
  match s.data with
  | [] => false
  | c :: _ => c = '/'

/-- Split on slashes as `path.split('/')` does, before the empty-piece filter. -/
def splitRaw : List Char → List Char → List String
  | [], acc => [String.mk acc.reverse]
  | c :: rest, acc =>
    if c = '/' then String.mk acc.reverse :: splitRaw rest []
    else splitRaw rest (c :: acc)

/-- Components of a path: `path.split('/').filter(|s| !s.is_empty())`. -/
def splitPath (s : String) : List String :=
  (splitRaw s.data []).filter (fun t => t ≠ "")

/-- Rust `str::trim_matches('/')`. -/
def trimSlashes (s : String) : String :=
  String.mk (((s.data.dropWhile (fun c => c = '/')).reverse.dropWhile
    (fun c => c = '/')).reverse)

/-- Embedding of `split` of src/path.rs: parent directory and basename. -/
def split (path : String) : PRes (String × String) :=
  if ¬ startsWithSlash path then .err .InvalidPath
  else
    let components := splitPath path
    if components.isEmpty then pure ("/", "")
    else
      let file_name := components.getLastD ""
      let dir_path := String.intercalate "/" components.dropLast
      if dir_path = "" then pure ("/", file_name)
      else pure ("/" ++ dir_path, file_name)

/-- Loop of `canonicalize`, driven by structural fuel (the Rust `loop`);
state: queue of components still to process, emitted canonical
components, current inode id and record, parent inode id, and the
symlink expansion depth, which is tested against `SYMLOOP_MAX` at the
top of every iteration.  Fuel exhaustion returns the `nofuel` marker;
a sufficient fuel bound is proved below. -/
def canonLoop (d : Disk) (sb : SuperBlock) (not_cano_last : Bool) :
    Nat → List String → List String → Nat → Inode → Nat → Nat → PRes (List String)
  | 0, _, _, _, _, _, _ => .nofuel
  | fuel + 1, queue, canon, cur, curIn, par, depth =>
    if depth ≥ SYMLOOP_MAX then .err .PathTooLong
    else
      match queue with
      | [] => pure canon
      | c :: rest =>
        if c = "." then canonLoop d sb not_cano_last fuel rest canon cur curIn par depth
        else if c = ".." then
          if cur = ROOT_INODE_ID then
            canonLoop d sb not_cano_last fuel rest canon cur curIn par depth
          else do
            let pin ← get_inode d sb par
            canonLoop d sb not_cano_last fuel rest canon.dropLast par pin par depth
        else do
          let next_inode_id ← dir_lookup d sb curIn (strName c)
          let next_inode ← get_inode d sb next_inode_id
          if next_inode.ftype = .Symlink then
            if rest.isEmpty ∧ not_cano_last then pure (canon ++ [c])
            else do
              let sym_target ← next_inode.get_path
              if startsWithSlash sym_target then do
                let rin ← get_inode d sb ROOT_INODE_ID
                canonLoop d sb not_cano_last fuel (splitPath sym_target ++ rest) []
                  ROOT_INODE_ID rin ROOT_INODE_ID (depth + 1)
              else
                canonLoop d sb not_cano_last fuel (splitPath sym_target ++ rest) canon
                  cur curIn par (depth + 1)
          else if next_inode.ftype ≠ .Directory ∧ ¬ rest.isEmpty then .err .NotDirectory
          else if rest.isEmpty then pure (canon ++ [c])
          else
            canonLoop d sb not_cano_last fuel rest (canon ++ [c]) next_inode_id next_inode cur depth

/-- Embedding of `canonicalize`: reject non-absolute paths, short-circuit `"/"`, run
the loop from the root inode, and reassemble the canonical string.  The
fuel passed is generous; the sufficiency theorem below shows the loop
never exhausts it for any state whose symlink targets have at most 63
components (a target is at most MAX_PATH_LEN = 104 bytes, i.e. at most
52 components). -/
def canonicalize (d : Disk) (sb : SuperBlock) (path : String) (not_cano_last : Bool) :
    PRes String :=
  if ¬ startsWithSlash path then .err .InvalidPath
  else if path = "/" then pure "/"
  else do
    let root_inode ← get_inode d sb ROOT_INODE_ID
    let components := splitPath path
    let canon ← canonLoop d sb not_cano_last (SYMLOOP_MAX * 64 + components.length + 1)
      components [] ROOT_INODE_ID root_inode ROOT_INODE_ID 0
    if canon.isEmpty then pure "/"
    else pure ("/" ++ String.intercalate "/" (canon.map trimSlashes))

/-- Re-walk of the canonical path shared by `resolve` and
`resolve_without_last`: descend component by component, returning
`(parent, current)` at the last component. -/
def resolve_walk (d : Disk) (sb : SuperBlock) :
    List String → Nat → Inode → PRes (Nat × Nat)
  | [], _, _ => .err .NotFound
  | c :: rest, cur, curIn => do
    if curIn.ftype ≠ .Directory then .err .NotDirectory
    else do
      let next ← dir_lookup d sb curIn (strName c)
      if rest.isEmpty then pure (cur, next)
      else do
        let nIn ← get_inode d sb next
        resolve_walk d sb rest next nIn

/-- Embedding of `resolve`: canonicalize (following a terminal symlink) then walk. -/
def resolve (d : Disk) (sb : SuperBlock) (path : String) : PRes (Nat × Nat) :=
  if path = "/" then pure (ROOT_INODE_ID, ROOT_INODE_ID)
  else if ¬ startsWithSlash path then .err .InvalidPath
  else do
    let canonicalized ← canonicalize d sb path false
    if canonicalized = "/" then pure (ROOT_INODE_ID, ROOT_INODE_ID)
    else do
      let current ← get_inode d sb ROOT_INODE_ID
      resolve_walk d sb (splitPath canonicalized) ROOT_INODE_ID current

/-- Embedding of `resolve_without_last`: identical walk over the canonical path
computed with `not_cano_last = true`. -/
def resolve_without_last (d : Disk) (sb : SuperBlock) (path : String) : PRes (Nat × Nat) :=
  if path = "/" then pure (ROOT_INODE_ID, ROOT_INODE_ID)
  else if ¬ startsWithSlash path then .err .InvalidPath
  else do
    let canonicalized ← canonicalize d sb path true
    if canonicalized = "/" then pure (ROOT_INODE_ID, ROOT_INODE_ID)
    else do
      let current ← get_inode d sb ROOT_INODE_ID
      resolve_walk d sb (splitPath canonicalized) ROOT_INODE_ID current

/-! ## File I/O (src/file.rs) -/

/-- Loop of `fread`.  Per iteration the byte count is
`BLOCK_SIZE.min(remain).min(inode.size - bytes_read - offset)` with the
two checked subtractions evaluated left to right; a zero count breaks;
the block is obtained from `bmap` with `create = true` as written in the
source (an `OutOfBounds` error from it would break early).  The fuel is
initialized to the buffer length, which bounds the iteration count since
each iteration consumes at least one byte of the remaining buffer. -/
def freadLoop : Nat → Disk → SuperBlock → Inode → Nat → Nat → Nat → Nat → List Nat →
    PRes (Disk × SuperBlock × Inode × Nat × List Nat)
  | 0, d, sb, inode, _, bytes_read, _, remain, buffer =>
    if remain = 0 then pure (d, sb, inode, bytes_read, buffer) else .nofuel
  | fuel + 1, d, sb, inode, offset, bytes_read, current_offset, remain, buffer =>
    if remain = 0 then pure (d, sb, inode, bytes_read, buffer)
    else
      (do
        let t1 ← subU inode.size bytes_read
        let avail ← subU t1 offset
        let bytes_to_read := min (min BLOCK_SIZE remain) avail
        if bytes_to_read = 0 then pure (d, sb, inode, bytes_read, buffer)
        else
          match bmap d sb inode (current_offset / BLOCK_SIZE * BLOCK_SIZE) true with
          | .err .OutOfBounds => pure (d, sb, inode, bytes_read, buffer)
          | .err e => .err e
          | .panicked => .panicked
          | .nofuel => .nofuel
          | .ok (d1, sb1, inode1, current_block_id) =>
            let start_offset := current_offset % BLOCK_SIZE
            let slice := (List.range bytes_to_read).map
              (fun k => d1.bytes current_block_id (start_offset + k))
            let buffer1 := listCopyAt buffer bytes_read slice
            freadLoop fuel d1 sb1 inode1 offset (bytes_read + bytes_to_read)
              (current_offset + bytes_to_read) (remain - bytes_to_read) buffer1)

/-- Embedding of `fread`: refuse non-Regular inodes with `NotReadable`, then run the
block loop.  Returns the final device, superblock and inode (all `&mut`
in the source), the byte count and the filled buffer. -/
def fread (d : Disk) (sb : SuperBlock) (inode : Inode) (offset : Nat) (buffer : List Nat) :
    PRes (Disk × SuperBlock × Inode × Nat × List Nat) :=
  if inode.ftype ≠ .Regular then .err .NotReadable
  else freadLoop buffer.length d sb inode offset 0 offset buffer.length buffer

/-! ## File-system facade (src/fs.rs) -/

/-- Transcribes the permission test of `FileSystem::fread`:
`matches!(inode.mode, Mode::Read | Mode::RW | Mode::RWE)` — note the
pattern does not include `Mode::RE`. -/
def mode_has_read : Mode → Bool
  | .Read => true
  | .RW => true
  | .RWE => true
  | _ => false

/-- Embedding of `FileSystem::format`: compute the layout, zero the metadata regions
(the per-block zeroing loops clear exactly the typed regions of the
model), allocate the sentinel inode and then the root inode, assert
`root_inode.id == ROOT_INODE_ID`, install `.` and `..`, set
`links_cnt = 2`, assert size and block count, persist. -/
def FileSystem.format (d : Disk) (num_blocks num_inodes : Nat) : PRes (Disk × SuperBlock) := do
  let superblock ← SuperBlock.new num_blocks num_inodes
  let d0 : Disk := { d with
    dataBitmap := fun _ => false
    inodeBitmap := fun _ => false
    inodes := fun _ => Inode.ZERO }
  let (d1, sb1, _sentinel) ← alloc_inode d0 superblock .Special .None
  let (d2, sb2, root_inode) ← alloc_inode d1 sb1 .Directory .RW
  if root_inode.id ≠ ROOT_INODE_ID then .panicked
  else do
    let dot ← DirEntry.new ROOT_INODE_ID DOT_NAME
    let (d3, sb3, root1) ← dir_add_entry d2 sb2 root_inode dot
    let dotdot ← DirEntry.new ROOT_INODE_ID DOTDOT_NAME
    let (d4, sb4, root2) ← dir_add_entry d3 sb3 root1 dotdot
    let root3 := { root2 with links_cnt := 2 }
    if root3.size ≠ 2 * DIR_ENTRY_SIZE then .panicked
    else if root3.blocks ≠ 1 then .panicked
    else do
      let d5 ← write_inode d4 sb4 root3
      pure (d5, sb4)

/-- Embedding of `FileSystem::lookup`: resolve the path, return the inode id and its type. -/
def FileSystem.lookup (d : Disk) (sb : SuperBlock) (path : String) : PRes (Nat × FileType) := do
  let (_, inode_id) ← resolve d sb path
  let inode ← get_inode d sb inode_id
  pure (inode_id, inode.ftype)

/-- Embedding of `FileSystem::fread`: resolve, require a Regular inode, apply the
permission test, delegate to `fread`.  Returns the device and
superblock (reads through `bmap(create = true)` can modify both), the
byte count and the buffer. -/
def FileSystem.fread (d : Disk) (sb : SuperBlock) (path : String) (offset : Nat)
    (buf : List Nat) : PRes (Disk × SuperBlock × Nat × List Nat) := do
  let (_, inode_id) ← resolve d sb path
  let inode ← get_inode d sb inode_id
  if inode.ftype ≠ .Regular then .err .NotRegular
  else if ¬ mode_has_read inode.mode then .err .PermissionDenied
  else do
    let (d1, sb1, _inode1, n, buf1) ← Muon.fread d sb inode offset buf
    pure (d1, sb1, n, buf1)

/-- Embedding of `FileSystem::link`: resolve the link's parent directory and the
target, require the target Regular, add the new entry pointing at the
target's inode, increment `links_cnt`.  Returns the target inode id. -/
def FileSystem.link (d : Disk) (sb : SuperBlock) (target link_name : String) :
    PRes (Disk × SuperBlock × Nat) := do
  let (parent_path, link_base) ← split link_name
  let (_, parent_inode_id) ← resolve d sb parent_path
  let parent_inode ← get_inode d sb parent_inode_id
  if parent_inode.ftype ≠ .Directory then .err .NotDirectory
  else do
    let (_, target_inode_id) ← resolve d sb target
    let target_inode ← get_inode d sb target_inode_id
    if target_inode.ftype ≠ .Regular then .err .NotRegular
    else do
      let entry ← DirEntry.new target_inode_id (strName link_base)
      let (d1, sb1, _parent1) ← dir_add_entry d sb parent_inode entry
      let target1 := { target_inode with links_cnt := target_inode.links_cnt + 1 }
      let d2 ← write_inode d1 sb1 target1
      pure (d2, sb1, target_inode_id)

/-- Embedding of `FileSystem::remove`: resolve parent and child (the child without
following a terminal symlink when removing a symlink), require the file
type to match, require emptiness for directories, remove the entry,
decrement `links_cnt` (plus the `.`/`..` adjustments for directories),
and free the inode exactly when `links_cnt` reaches 0. -/
def FileSystem.remove (d : Disk) (sb : SuperBlock) (path : String) (ftype : FileType) :
    PRes (Disk × SuperBlock) := do
  let (_parent_path2, file_name) ← split path
  let (_, parent_inode_id) ← resolve d sb (_parent_path2)
  let parent_inode ← get_inode d sb parent_inode_id
  if parent_inode.ftype ≠ .Directory then .err .NotDirectory
  else do
    let (_, inode_id) ←
      if ftype ≠ .Symlink then resolve d sb path else resolve_without_last d sb path
    let file_inode ← get_inode d sb inode_id
    if ftype = .Special then .err .InvalidArgument
    else if file_inode.ftype ≠ ftype then .err .InvalidArgument
    else do
      let is_empty ← if ftype = .Directory then dir_is_empty d sb file_inode else pure true
      if ftype = .Directory ∧ is_empty = false then .err .DirNotEmpty
      else do
        let (d1, sb1, parent1, _removed) ← dir_rm_entry d sb parent_inode (strName file_name)
        let lc ← subU file_inode.links_cnt 1
        let file1 := { file_inode with links_cnt := lc }
        let (d2, sb2, file2) ←
          if ftype = .Directory then do
            let lc2 ← subU file1.links_cnt 1
            let plc ← subU parent1.links_cnt 1
            let parent2 := { parent1 with links_cnt := plc }
            let da ← write_inode d1 sb1 parent2
            pure (da, sb1, { file1 with links_cnt := lc2 })
          else pure (d1, sb1, file1)
        if file2.links_cnt = 0 then do
          let (d3, sb3, _freed) ← free_inode d2 sb2 file2.id
          pure (d3, sb3)
        else do
          let d3 ← write_inode d2 sb2 file2
          pure (d3, sb2)

/-! ## Result projections (defaults are only reached on non-`ok` results) -/

def SB_DUMMY : SuperBlock :=
  { magic := 0, num_blocks := 0, block_size := 0, free_blocks := 0, num_inodes := 0
    free_inodes := 0, root_inode := 0, data_bitmap_start := 0, data_bitmap_blocks := 0
    inode_bitmap_start := 0, inode_bitmap_blocks := 0, inode_table_start := 0
    inode_table_blocks := 0, data_start := 0 }

def DISK0 : Disk :=
  { dataBitmap := fun _ => false
    inodeBitmap := fun _ => false
    inodes := fun _ => Inode.ZERO
    bytes := fun _ _ => 0 }

def sbOf (r : PRes SuperBlock) : SuperBlock := r.getD SB_DUMMY

def res4Disk : PRes (Disk × SuperBlock × Inode × Nat) → Disk
  | .ok (d, _, _, _) => d
  | _ => DISK0

def res4SB : PRes (Disk × SuperBlock × Inode × Nat) → SuperBlock
  | .ok (_, sb, _, _) => sb
  | _ => SB_DUMMY

def res4Inode : PRes (Disk × SuperBlock × Inode × Nat) → Inode
  | .ok (_, _, i, _) => i
  | _ => Inode.ZERO

def res4Val : PRes (Disk × SuperBlock × Inode × Nat) → Nat
  | .ok (_, _, _, n) => n
  | _ => 0

def res3Disk : PRes (Disk × SuperBlock × Inode) → Disk
  | .ok (d, _, _) => d
  | _ => DISK0

def res3SB : PRes (Disk × SuperBlock × Inode) → SuperBlock
  | .ok (_, sb, _) => sb
  | _ => SB_DUMMY

def res3Inode : PRes (Disk × SuperBlock × Inode) → Inode
  | .ok (_, _, i) => i
  | _ => Inode.ZERO

def res5Disk : PRes (Disk × SuperBlock × Inode × Nat × List Nat) → Disk
  | .ok (d, _, _, _, _) => d
  | _ => DISK0

def res5SB : PRes (Disk × SuperBlock × Inode × Nat × List Nat) → SuperBlock
  | .ok (_, sb, _, _, _) => sb
  | _ => SB_DUMMY

def res5Count : PRes (Disk × SuperBlock × Inode × Nat × List Nat) → Nat
  | .ok (_, _, _, n, _) => n
  | _ => 0

def frBytes : PRes (Disk × SuperBlock × Nat × List Nat) → Nat × List Nat
  | .ok (_, _, n, b) => (n, b)
  | _ => (0, [])

def rwDisk : PRes (Disk × SuperBlock) → Disk
  | .ok (d, _) => d
  | _ => DISK0

def rwSB : PRes (Disk × SuperBlock) → SuperBlock
  | .ok (_, sb) => sb
  | _ => SB_DUMMY

/-! ## Concrete states used by the claims -/

/-- Superblock produced by `SuperBlock::new(64, 80)` (the 64-block,
80-inode disk of the repository's own tests): layout 1 + 8 + 10 + 20
metadata blocks, data region starting at block 39 with 25 free blocks. -/
def sb64 : SuperBlock := (SuperBlock.new 64 80).getD SB_DUMMY

/-- Directory entry with the given name padded to 60 bytes. -/
def mkEntry (id : Nat) (s : String) : DirEntry :=
  { inode_id := id
    name := strName s ++ List.replicate (MAX_FILE_NAME_LEN - (strName s).length) 0 }

def dptrs1 (b : Nat) : List (Option Nat) := some b :: List.replicate 11 none

/-- Hand-built root directory inode at id `ROOT_INODE_ID = 0` (the id the
resolver actually uses), with its entries in data block 39. -/
def c9root : Inode :=
  { ftype := .Directory, mode := .RW, id := 0, blocks := 1, links_cnt := 2
    size := 2 * DIR_ENTRY_SIZE, direct_ptrs := dptrs1 39, indirect_ptr := none, sym_path := "" }

def c9content : List Nat := strName "Hello, hard link!"

def c9file : Inode :=
  { ftype := .Regular, mode := .RW, id := 2, blocks := 1, links_cnt := 1
    size := 17, direct_ptrs := dptrs1 41, indirect_ptr := none, sym_path := "" }

def c9dir : Inode :=
  { ftype := .Directory, mode := .RW, id := 3, blocks := 1, links_cnt := 2
    size := 2 * DIR_ENTRY_SIZE, direct_ptrs := dptrs1 40, indirect_ptr := none, sym_path := "" }

def c9sb : SuperBlock := { sb64 with free_blocks := 22, free_inodes := 77 }

/-- State for the hard-link scenario: root holds `a.txt` (inode 2, one
data block with 17 bytes of content) and directory `d` (inode 3). -/
def c9disk : Disk :=
  { dataBitmap := fun i => decide (i < 3)
    inodeBitmap := fun i => decide (i = 0 ∨ i = 2 ∨ i = 3)
    inodes := fun i =>
      if i = 0 then c9root else if i = 2 then c9file else if i = 3 then c9dir else Inode.ZERO
    bytes := fun b off =>
      if b = 39 then dirBlockBytes [mkEntry 2 "a.txt", mkEntry 3 "d"] off
      else if b = 40 then dirBlockBytes [mkEntry 3 ".", mkEntry 0 ".."] off
      else if b = 41 then c9content.getD off 0
      else 0 }

def c9s1 : PRes (Disk × SuperBlock × Nat) := FileSystem.link c9disk c9sb "/a.txt" "/d/b.txt"

def c9d1 : Disk :=
  match c9s1 with
  | .ok (d, _, _) => d
  | _ => DISK0

def c9sb1 : SuperBlock :=
  match c9s1 with
  | .ok (_, sb, _) => sb
  | _ => SB_DUMMY

def c9s2 : PRes (Disk × SuperBlock) := FileSystem.remove c9d1 c9sb1 "/a.txt" .Regular

def c9d2 : Disk := rwDisk c9s2

def c9sb2 : SuperBlock := rwSB c9s2

def c9s3 : PRes (Nat × FileType) := FileSystem.lookup c9d2 c9sb2 "/d/b.txt"

def c9s4 : PRes (Disk × SuperBlock × Nat × List Nat) :=
  FileSystem.fread c9d2 c9sb2 "/d/b.txt" 0 (List.replicate 17 0)

def c9s5 : PRes (Disk × SuperBlock) := FileSystem.remove c9d2 c9sb2 "/d/b.txt" .Regular

/-- Sparse regular file for the read-only claim: 2 blocks of size, a
hole at block 0, data block 40 behind block index 1. -/
def c2inode : Inode :=
  { ftype := .Regular, mode := .RW, id := 2, blocks := 1, links_cnt := 1
    size := 2 * BLOCK_SIZE, direct_ptrs := none :: some 40 :: List.replicate 10 none
    indirect_ptr := none, sym_path := "" }

def c2sb : SuperBlock := { sb64 with free_blocks := 23, free_inodes := 77 }

def c2disk : Disk :=
  { dataBitmap := fun i => decide (i < 2)
    inodeBitmap := fun i => decide (i = 0 ∨ i = 2)
    inodes := fun i => if i = 2 then c2inode else if i = 0 then c9root else Inode.ZERO
    bytes := fun _ _ => 0 }

def c2res : PRes (Disk × SuperBlock × Inode × Nat × List Nat) :=
  fread c2disk c2sb c2inode 0 (List.replicate BLOCK_SIZE 0)

/-- Regular file of 13 bytes for the end-of-file read claim. -/
def c6inode : Inode :=
  { ftype := .Regular, mode := .RW, id := 2, blocks := 1, links_cnt := 1
    size := 13, direct_ptrs := dptrs1 40, indirect_ptr := none, sym_path := "" }

def c6sb : SuperBlock := { sb64 with free_blocks := 23, free_inodes := 77 }

def c6disk : Disk :=
  { dataBitmap := fun i => decide (i < 2)
    inodeBitmap := fun i => decide (i = 0 ∨ i = 2)
    inodes := fun i => if i = 2 then c6inode else if i = 0 then c9root else Inode.ZERO
    bytes := fun b off => if b = 40 then (strName "Hello, world!").getD off 0 else 0 }

/-- Fresh empty regular file for the sparse-extension claim. -/
def c3inode : Inode :=
  { ftype := .Regular, mode := .RW, id := 2, blocks := 0, links_cnt := 1
    size := 0, direct_ptrs := List.replicate 12 none, indirect_ptr := none, sym_path := "" }

def c3sb : SuperBlock := { sb64 with free_blocks := 24, free_inodes := 77 }

def c3disk : Disk :=
  { dataBitmap := fun i => decide (i = 0)
    inodeBitmap := fun i => decide (i = 0 ∨ i = 2)
    inodes := fun i => if i = 2 then c3inode else if i = 0 then c9root else Inode.ZERO
    bytes := fun _ _ => 0 }

def c3res : PRes (Disk × SuperBlock × Inode × Nat) :=
  bmap c3disk c3sb c3inode (7 * BLOCK_SIZE) true

/-- Root with a single regular file `f` (inode 2, mode parametric, one
byte of content `H` in block 40) for the permission-check claim. -/
def c7root : Inode :=
  { ftype := .Directory, mode := .RW, id := 0, blocks := 1, links_cnt := 2
    size := DIR_ENTRY_SIZE, direct_ptrs := dptrs1 39, indirect_ptr := none, sym_path := "" }

def c7file (m : Mode) : Inode :=
  { ftype := .Regular, mode := m, id := 2, blocks := 1, links_cnt := 1
    size := 1, direct_ptrs := dptrs1 40, indirect_ptr := none, sym_path := "" }

def c7sb : SuperBlock := { sb64 with free_blocks := 23, free_inodes := 77 }

def c7disk (m : Mode) : Disk :=
  { dataBitmap := fun i => decide (i < 2)
    inodeBitmap := fun i => decide (i = 0 ∨ i = 2)
    inodes := fun i => if i = 2 then c7file m else if i = 0 then c7root else Inode.ZERO
    bytes := fun b off =>
      if b = 39 then dirBlockBytes [mkEntry 2 "f"] off
      else if b = 40 then (if off = 0 then 72 else 0)
      else 0 }

def c7res (m : Mode) : PRes (Disk × SuperBlock × Nat × List Nat) :=
  FileSystem.fread (c7disk m) c7sb "/f" 0 (List.replicate 1 0)

/-- Directory with a live entry in slot 0, a tombstone (from a removal)
in slot 1, and a live entry in slot 2; per the code's bookkeeping its
size is 2 entries. -/
def c5parent : Inode :=
  { ftype := .Directory, mode := .RW, id := 5, blocks := 1, links_cnt := 2
    size := 2 * DIR_ENTRY_SIZE, direct_ptrs := dptrs1 40, indirect_ptr := none, sym_path := "" }

def c5sb : SuperBlock := { sb64 with free_blocks := 23, free_inodes := 77 }

def c5disk : Disk :=
  { dataBitmap := fun i => decide (i < 2)
    inodeBitmap := fun i => decide (i = 0 ∨ i = 2 ∨ i = 4 ∨ i = 5)
    inodes := fun i => if i = 5 then c5parent else Inode.ZERO
    bytes := fun b off =>
      if b = 40 then dirBlockBytes [mkEntry 2 "a", DirEntry.NULL, mkEntry 4 "c"] off
      else 0 }

def c5res : PRes (Disk × SuperBlock × Inode) :=
  dir_add_entry c5disk c5sb c5parent (mkEntry 6 "e")

def c5rm : PRes (Disk × SuperBlock × Inode × Nat) :=
  dir_rm_entry c5disk c5sb c5parent (strName "a")

/-- Symlink cycle `a -> /b`, `b -> /a` installed in the root directory. -/
def c8symA : Inode :=
  { ftype := .Symlink, mode := .Read, id := 2, blocks := 0, links_cnt := 1
    size := 0, direct_ptrs := List.replicate 12 none, indirect_ptr := none, sym_path := "/b" }

def c8symB : Inode :=
  { ftype := .Symlink, mode := .Read, id := 3, blocks := 0, links_cnt := 1
    size := 0, direct_ptrs := List.replicate 12 none, indirect_ptr := none, sym_path := "/a" }

def c8sb : SuperBlock := { sb64 with free_blocks := 24, free_inodes := 77 }

def c8disk : Disk :=
  { dataBitmap := fun i => decide (i = 0)
    inodeBitmap := fun i => decide (i = 0 ∨ i = 2 ∨ i = 3)
    inodes := fun i =>
      if i = 0 then c9root else if i = 2 then c8symA else if i = 3 then c8symB else Inode.ZERO
    bytes := fun b off =>
      if b = 39 then dirBlockBytes [mkEntry 2 "a", mkEntry 3 "b"] off
      else 0 }

/-- Number of path components a symlink target of inode `i` expands to. -/
def symComps (d : Disk) (i : Nat) : Nat := (splitPath (d.inodes i).sym_path).length

set_option maxRecDepth 10000

/-! ## Helper lemmas -/

theorem bind_ok {α β : Type} {e : PRes α} {f : α → PRes β} {r : β}
    (h : e >>= f = .ok r) : ∃ a, e = .ok a ∧ f a = .ok r := by
  cases e with
  | ok a => exact ⟨a, rfl, h⟩
  | err eo => simp [Bind.bind, PRes.bind] at h
  | panicked => simp [Bind.bind, PRes.bind] at h
  | nofuel => simp [Bind.bind, PRes.bind] at h

theorem isOk_ex {α : Type} {r : PRes α} (h : r.isOk = true) : ∃ a, r = .ok a := by
  cases r with
  | ok a => exact ⟨a, rfl⟩
  | err e => simp [PRes.isOk] at h
  | panicked => simp [PRes.isOk] at h
  | nofuel => simp [PRes.isOk] at h

theorem subU_ok {a b c : Nat} (h : subU a b = .ok c) : a = c + b := by
  unfold subU at h
  split at h
  · cases h
  · cases h
    omega

theorem subU_lt {a b : Nat} (h : a < b) : subU a b = .panicked := by
  simp [subU, h]

theorem bind_ne_nofuel {α β : Type} {e : PRes α} {f : α → PRes β}
    (he : e ≠ .nofuel) (hf : ∀ a, f a ≠ .nofuel) : e >>= f ≠ .nofuel := by
  cases e with
  | ok a => exact hf a
  | err eo => simp [Bind.bind, PRes.bind]
  | panicked => simp [Bind.bind, PRes.bind]
  | nofuel => exact absurd rfl he

theorem pure_ne_nofuel {α : Type} (a : α) : (pure a : PRes α) ≠ .nofuel := by
  simp [pure]

theorem set_first_fit_loop_ne_nofuel (bm : Nat → Bool) (t : Nat) (v : Bool) :
    ∀ rem idx, set_first_fit_loop bm t v idx rem ≠ .nofuel := by
  intro rem
  induction rem with
  | zero => intro idx; simp [set_first_fit_loop]
  | succ n ih =>
    intro idx
    unfold set_first_fit_loop
    split
    · simp
    · split
      · simp
      · exact ih (idx + 1)

theorem set_first_fit_bit_ne_nofuel (bm : Nat → Bool) (s bl t : Nat) (v : Bool) :
    set_first_fit_bit bm s bl t v ≠ .nofuel := by
  unfold set_first_fit_bit
  split
  · simp
  · simp
  · simp
  · next heq => exact absurd heq (set_first_fit_loop_ne_nofuel bm t v _ 0)

theorem subU_ne_nofuel (a b : Nat) : subU a b ≠ .nofuel := by
  unfold subU
  split <;> simp

theorem set_bit_at_ne_nofuel (bm : Nat → Bool) (s bl i t : Nat) (v : Bool) :
    set_bit_at bm s bl i t v ≠ .nofuel := by
  unfold set_bit_at
  split
  · simp
  · dsimp only
    split <;> simp

theorem alloc_data_block_ne_nofuel (d : Disk) (sb : SuperBlock) :
    alloc_data_block d sb ≠ .nofuel := by
  unfold alloc_data_block
  refine bind_ne_nofuel (subU_ne_nofuel _ _) (fun a => ?_)
  refine bind_ne_nofuel (set_first_fit_bit_ne_nofuel _ _ _ _ _) (fun p => ?_)
  refine bind_ne_nofuel (subU_ne_nofuel _ _) (fun fb => ?_)
  exact pure_ne_nofuel _

theorem write_inode_ne_nofuel (d : Disk) (sb : SuperBlock) (i : Inode) :
    write_inode d sb i ≠ .nofuel := by
  simp [write_inode, pure]

theorem get_inode_cases (d : Disk) (sb : SuperBlock) (i : Nat) :
    get_inode d sb i = .err .OutOfBounds ∨ get_inode d sb i = .ok (d.inodes i) := by
  unfold get_inode
  split
  · exact Or.inl rfl
  · exact Or.inr rfl

theorem get_inode_ne_nofuel (d : Disk) (sb : SuperBlock) (i : Nat) :
    get_inode d sb i ≠ .nofuel := by
  rcases get_inode_cases d sb i with h | h <;> simp [h]

theorem get_path_ne_nofuel (i : Inode) : i.get_path ≠ .nofuel := by
  unfold Inode.get_path
  split <;> simp [pure]

theorem pres_pure {α : Type} (a : α) : (pure a : PRes α) = .ok a := rfl

theorem pres_bind_ok {α β : Type} (a : α) (f : α → PRes β) :
    ((PRes.ok a : PRes α) >>= f) = f a := rfl

theorem pres_bind_err {α β : Type} (e : FsError) (f : α → PRes β) :
    ((PRes.err e : PRes α) >>= f) = .err e := rfl

theorem pres_bind_panicked {α β : Type} (f : α → PRes β) :
    ((PRes.panicked : PRes α) >>= f) = .panicked := rfl

/-- With `create = false`, `bmap` is read-only: it either returns a block
id with the device, superblock and inode untouched, or fails. -/
theorem bmap_false_shape (d : Disk) (sb : SuperBlock) (inode : Inode) (o : Nat) :
    (∃ blk, bmap d sb inode o false = .ok (d, sb, inode, blk)) ∨
    (∃ e, bmap d sb inode o false = .err e) := by
  simp only [bmap, Bool.false_eq_true, false_and, if_false]
  split
  · exact Or.inr ⟨_, rfl⟩
  · split
    · split
      · exact Or.inl ⟨_, rfl⟩
      · exact Or.inr ⟨_, rfl⟩
    · split
      · split
        · simp only [pres_pure, pres_bind_ok]
          split
          · exact Or.inr ⟨_, rfl⟩
          · exact Or.inl ⟨_, rfl⟩
        · exact Or.inr ⟨_, rfl⟩
      · exact Or.inr ⟨_, rfl⟩

theorem bmap_false_ne_nofuel (d : Disk) (sb : SuperBlock) (inode : Inode) (o : Nat) :
    bmap d sb inode o false ≠ .nofuel := by
  rcases bmap_false_shape d sb inode o with ⟨blk, h⟩ | ⟨e, h⟩ <;> simp [h]

theorem dir_lookup_blocks_ne_nofuel (name : List Nat) (nd : Nat) :
    ∀ rem i n d sb inode, dir_lookup_blocks name nd rem i n d sb inode ≠ .nofuel := by
  intro rem
  induction rem with
  | zero => intro i n d sb inode; simp [dir_lookup_blocks]
  | succ m ih =>
    intro i n d sb inode
    unfold dir_lookup_blocks
    refine bind_ne_nofuel (bmap_false_ne_nofuel _ _ _ _) (fun q => ?_)
    obtain ⟨d1, sb1, inode1, blk⟩ := q
    dsimp only
    cases hsl : dir_lookup_slots d1.bytes blk name nd NUM_ENTRY_PER_BLOCK 0 n with
    | mk fst n2 =>
      cases fst
      · exact ih _ _ _ _ _
      · exact pure_ne_nofuel _

theorem dir_lookup_ne_nofuel (d : Disk) (sb : SuperBlock) (inode : Inode) (name : List Nat) :
    dir_lookup d sb inode name ≠ .nofuel := by
  unfold dir_lookup
  split
  · simp
  · split
    · simp
    · exact dir_lookup_blocks_ne_nofuel _ _ _ _ _ _ _ _

theorem bind_ne_nofuel2 {α β : Type} {e : PRes α} {f : α → PRes β}
    (he : e ≠ .nofuel) (hf : ∀ a, e = .ok a → f a ≠ .nofuel) : e >>= f ≠ .nofuel := by
  cases e with
  | ok a => exact hf a rfl
  | err eo => simp [Bind.bind, PRes.bind]
  | panicked => simp [Bind.bind, PRes.bind]
  | nofuel => exact absurd rfl he

theorem get_inode_ok {d : Disk} {sb : SuperBlock} {i : Nat} {inode : Inode}
    (h : get_inode d sb i = .ok inode) : inode = d.inodes i := by
  rcases get_inode_cases d sb i with hc | hc <;> rw [hc] at h
  · cases h
  · cases h; rfl

theorem get_path_ok {i : Inode} {s : String} (h : i.get_path = .ok s) : s = i.sym_path := by
  unfold Inode.get_path at h
  split at h
  · cases h
  · cases h; rfl

/-- Fuel sufficiency for the `canonicalize` loop: every iteration either
pops a component off the queue (keeping the symlink depth) or raises the
depth by one while enqueueing at most `C` components, and the depth is
cut off at `SYMLOOP_MAX`, so `(SYMLOOP_MAX - depth) * (C + 1) +
queue.length + 1` rounds of fuel are never exhausted. -/
theorem canonLoop_fuel (d : Disk) (sb : SuperBlock) (flag : Bool) (C : Nat)
    (hC : ∀ i, symComps d i ≤ C) :
    ∀ fuel queue canon cur curIn par depth,
      (SYMLOOP_MAX - depth) * (C + 1) + queue.length + 1 ≤ fuel →
      canonLoop d sb flag fuel queue canon cur curIn par depth ≠ .nofuel := by
  intro fuel
  induction fuel with
  | zero => intro queue canon cur curIn par depth hb; omega
  | succ f ih =>
    intro queue canon cur curIn par depth hb
    unfold canonLoop
    split
    · simp
    · rename_i hdepth
      cases queue with
      | nil => exact pure_ne_nofuel _
      | cons c rest =>
        simp only [List.length_cons] at hb
        dsimp only
        split
        · exact ih rest canon cur curIn par depth (by omega)
        · split
          · split
            · exact ih rest canon cur curIn par depth (by omega)
            · refine bind_ne_nofuel (get_inode_ne_nofuel _ _ _) fun pin => ?_
              exact ih rest canon.dropLast par pin par depth (by omega)
          · refine bind_ne_nofuel (dir_lookup_ne_nofuel _ _ _ _) fun nid => ?_
            refine bind_ne_nofuel2 (get_inode_ne_nofuel _ _ _) fun nin hnin => ?_
            have hnin2 : nin = d.inodes nid := get_inode_ok hnin
            split
            · split
              · exact pure_ne_nofuel _
              · refine bind_ne_nofuel2 (get_path_ne_nofuel _) fun target htarget => ?_
                have hT : (splitPath target).length ≤ C := by
                  rw [get_path_ok htarget, hnin2]
                  exact hC nid
                have hmul : (SYMLOOP_MAX - depth) * (C + 1) =
                    (SYMLOOP_MAX - (depth + 1)) * (C + 1) + (C + 1) := by
                  have hd : SYMLOOP_MAX - depth = (SYMLOOP_MAX - (depth + 1)) + 1 := by omega
                  rw [hd, Nat.succ_mul]
                split
                · refine bind_ne_nofuel (get_inode_ne_nofuel _ _ _) fun rin => ?_
                  refine ih _ _ _ _ _ _ ?_
                  simp only [List.length_append]
                  omega
                · refine ih _ _ _ _ _ _ ?_
                  simp only [List.length_append]
                  omega
            · split
              · simp
              · split
                · exact pure_ne_nofuel _
                · exact ih rest (canon ++ [c]) nid nin cur depth (by omega)

/-- The fuel `canonicalize` hands its loop is sufficient for every state
whose symlink targets split into at most 63 components (the on-disk
targets are at most MAX_PATH_LEN = 104 bytes, i.e. at most 52). -/
theorem canonicalize_ne_nofuel (d : Disk) (sb : SuperBlock) (path : String) (flag : Bool)
    (C : Nat) (hC : ∀ i, symComps d i ≤ C) (hC64 : C + 1 ≤ 64) :
    canonicalize d sb path flag ≠ .nofuel := by
  unfold canonicalize
  split
  · simp
  · split
    · exact pure_ne_nofuel _
    · refine bind_ne_nofuel (get_inode_ne_nofuel _ _ _) fun rin => ?_
      have hmul : SYMLOOP_MAX * (C + 1) ≤ SYMLOOP_MAX * 64 :=
        Nat.mul_le_mul_left SYMLOOP_MAX hC64
      have hS : SYMLOOP_MAX - 0 = SYMLOOP_MAX := rfl
      refine bind_ne_nofuel
        (canonLoop_fuel d sb flag C hC _ _ _ _ _ _ _ (by rw [hS]; omega)) fun canon => ?_
      split
      · exact pure_ne_nofuel _
      · exact pure_ne_nofuel _

theorem alloc_data_block_ok {d : Disk} {sb : SuperBlock} {da : Disk} {sba : SuperBlock}
    {blk : Nat} (h : alloc_data_block d sb = .ok (da, sba, blk)) :
    sb.free_blocks = sba.free_blocks + 1 ∧ (∀ o2, da.bytes blk o2 = 0) := by
  unfold alloc_data_block at h
  obtain ⟨total, h1, h⟩ := bind_ok h
  obtain ⟨p, h2, h⟩ := bind_ok h
  obtain ⟨bm, idx⟩ := p
  obtain ⟨fb2, h3, h⟩ := bind_ok h
  rw [pres_pure] at h
  cases h
  refine ⟨subU_ok h3, fun o2 => ?_⟩
  simp

/-- The block scan of `dir_rm_entry` leaves device, superblock and the
parent inode untouched (its `bmap` calls use `create = false`). -/
theorem dir_rm_find_ro (name : List Nat) (nd : Nat) :
    ∀ rem i n d sb inode found d1 sb1 inode1,
      dir_rm_find name nd rem i n d sb inode = .ok (found, d1, sb1, inode1) →
      d1 = d ∧ sb1 = sb ∧ inode1 = inode := by
  intro rem
  induction rem with
  | zero =>
    intro i n d sb inode found d1 sb1 inode1 h
    rw [dir_rm_find, pres_pure] at h
    cases h
    exact ⟨rfl, rfl, rfl⟩
  | succ m ih =>
    intro i n d sb inode found d1 sb1 inode1 h
    rw [dir_rm_find] at h
    rcases bmap_false_shape d sb inode (i * BLOCK_SIZE) with ⟨blk, hbm⟩ | ⟨e, hbm⟩
    · rw [hbm, pres_bind_ok] at h
      dsimp only at h
      split at h
      · rw [pres_pure] at h
        cases h
        exact ⟨rfl, rfl, rfl⟩
      · exact ih _ _ _ _ _ _ _ _ _ h
    · rw [hbm, pres_bind_err] at h
      cases h

/-- A successful `dir_add_entry` always grows the directory size by one
entry: the empty-slot branch sets `size = prev_size + DIR_ENTRY_SIZE`
also when the slot it reuses is a tombstone, and the append branch sets
`size = (prev_size / DIR_ENTRY_SIZE + 1) * DIR_ENTRY_SIZE`. -/
theorem dir_add_entry_size {d : Disk} {sb : SuperBlock} {p : Inode} {e : DirEntry}
    {d2 : Disk} {sb2 : SuperBlock} {p2 : Inode}
    (h64 : p.size % DIR_ENTRY_SIZE = 0)
    (h : dir_add_entry d sb p e = .ok (d2, sb2, p2)) :
    p2.size = p.size + DIR_ENTRY_SIZE := by
  unfold dir_add_entry at h
  split at h
  · cases h
  · split at h
    · cases h
    · cases h
    · cases h
    · obtain ⟨q, hfs, h⟩ := bind_ok h
      obtain ⟨slot, d1, sb1, inode1⟩ := q
      cases slot with
      | some pr =>
        obtain ⟨blk, off⟩ := pr
        dsimp only at h
        split at h
        · cases h
        · obtain ⟨dd, hw, h⟩ := bind_ok h
          rw [pres_pure] at h
          cases h
          rfl
      | none =>
        dsimp only at h
        obtain ⟨t, hbm, h⟩ := bind_ok h
        obtain ⟨da, sba, inodea, blk⟩ := t
        obtain ⟨dd, hw, h⟩ := bind_ok h
        rw [pres_pure] at h
        cases h
        show (p.size / DIR_ENTRY_SIZE + 1) * DIR_ENTRY_SIZE = p.size + DIR_ENTRY_SIZE
        rw [Nat.succ_mul, Nat.div_mul_cancel (Nat.dvd_of_mod_eq_zero h64)]

/-- A successful `dir_rm_entry` always shrinks the directory size by one
entry, whether or not the removed slot was at the high-water mark. -/
theorem dir_rm_entry_size {d : Disk} {sb : SuperBlock} {p : Inode} {name : List Nat}
    {d2 : Disk} {sb2 : SuperBlock} {p2 : Inode} {rid : Nat}
    (h : dir_rm_entry d sb p name = .ok (d2, sb2, p2, rid)) :
    p2.size + DIR_ENTRY_SIZE = p.size := by
  unfold dir_rm_entry at h
  split at h
  · cases h
  · split at h
    · cases h
    · split at h
      · cases h
      · obtain ⟨q, hfs, h⟩ := bind_ok h
        obtain ⟨found, d1, sb1, inode1⟩ := q
        obtain ⟨hd1, hsb1, hinode1⟩ := dir_rm_find_ro _ _ _ _ _ _ _ _ _ _ _ _ hfs
        cases found with
        | none =>
          dsimp only at h
          cases h
        | some trip =>
          obtain ⟨blk, off, rid2⟩ := trip
          dsimp only at h
          obtain ⟨size1, hsub, h⟩ := bind_ok h
          obtain ⟨dd, hw, h⟩ := bind_ok h
          rw [pres_pure] at h
          cases h
          have hs := subU_ok hsub
          rw [hinode1] at hs
          dsimp only
          omega

/-! ## Claim theorems -/

/-- Claim C1: the spec reserves inode id 0 as a sentinel and makes inode
id 1 the root directory, with the path `/` resolving to inode id 1.  The
code instead defines `ROOT_INODE_ID = 0` (src/config.rs line 5):
`format` allocates the sentinel at id 0 and the root directory at id 1,
so its own assertion `root_inode.id == ROOT_INODE_ID` fails and `format`
panics on every call (shown here for the 64-block, 80-inode disk of the
repository's tests, for every initial device content), and `resolve("/")`
returns inode id 0 — the sentinel — rather than the root's id 1. -/
theorem c1_format_root_id_mismatch :
    ROOT_INODE_ID = 0 ∧
    (∀ d0 : Disk, FileSystem.format d0 64 80 = .panicked) ∧
    (∀ (d : Disk) (sb : SuperBlock), resolve d sb "/" = .ok (0, 0)) :=
  ⟨rfl, fun _ => rfl, fun _ _ => rfl⟩

/-- Claim C2: the claim says `fread` invokes `bmap` with `create = false`,
never allocates, and stops early at holes.  The source passes
`create = true` (src/file.rs line 37): reading a sparse Regular file
whose first block is a hole (size 1024, only block index 1 mapped)
allocates a fresh data block — the data bitmap bit for the new block
flips from free to used and `free_blocks` drops from 23 to 22 — and the
read does not stop early, returning all 512 requested bytes. -/
theorem c2_fread_hole_allocates :
    c2disk.dataBitmap 2 = false ∧ c2sb.free_blocks = 23 ∧
    c2res.isOk = true ∧ res5Count c2res = 512 ∧
    (res5SB c2res).free_blocks = 22 ∧ (res5Disk c2res).dataBitmap 2 = true := by
  refine ⟨by decide, by decide, by decide, by decide, by decide, by decide⟩

/-- Claim C3 (amended): for an inode with an absent target pointer and a
block-aligned offset `o ≥ size`, `bmap(create = true)` sets `size` to
`o + 1` and allocates exactly one data block — plus the indirect index
block exactly when `o` lies in the indirect range and the indirect block
is absent — but afterwards `inode.blocks` is `ceil(size / BLOCK_SIZE) + 1`,
one more than the size's rounding: the extension recomputes `blocks`
from the new size (counting the about-to-be-filled block) and the
allocation increments `blocks` once more. -/
theorem c3_bmap_sparse_extension (d : Disk) (sb : SuperBlock) (inode : Inode) (o : Nat)
    (halign : o % BLOCK_SIZE = 0) (hge : inode.size ≤ o)
    (hcase :
      (o / BLOCK_SIZE < NUM_DIRECT_PTRS ∧ inode.direct_ptrs.getD (o / BLOCK_SIZE) none = none) ∨
      (NUM_DIRECT_PTRS ≤ o / BLOCK_SIZE ∧ o / BLOCK_SIZE - NUM_DIRECT_PTRS < PTRS_PER_BLOCK ∧
        inode.indirect_ptr = none) ∨
      (NUM_DIRECT_PTRS ≤ o / BLOCK_SIZE ∧ o / BLOCK_SIZE - NUM_DIRECT_PTRS < PTRS_PER_BLOCK ∧
        ∃ ip, inode.indirect_ptr = some ip ∧
          readU32 d.bytes ip (o / BLOCK_SIZE - NUM_DIRECT_PTRS) = 0))
    (hok : (bmap d sb inode o true).isOk = true) :
    (res4Inode (bmap d sb inode o true)).size = o + 1 ∧
    (res4Inode (bmap d sb inode o true)).blocks = (o + 1 + (BLOCK_SIZE - 1)) / BLOCK_SIZE + 1 ∧
    sb.free_blocks = (res4SB (bmap d sb inode o true)).free_blocks +
      (if inode.indirect_ptr = none ∧ NUM_DIRECT_PTRS ≤ o / BLOCK_SIZE then 2 else 1) := by
  obtain ⟨quad, hq⟩ := isOk_ex hok
  rw [hq]
  simp only [bmap, halign, hge] at hq
  simp only [ne_eq, not_true_eq_false, if_false, if_true, and_true, true_and, ite_true] at hq
  rcases hcase with ⟨hb, habs⟩ | ⟨hb, hlt, hind⟩ | ⟨hb, hlt, ip, hind, hslot⟩
  · rw [if_pos hb, habs] at hq
    dsimp only at hq
    obtain ⟨t, ha, hq⟩ := bind_ok hq
    obtain ⟨d1, sb1, blk⟩ := t
    obtain ⟨hfree, hzero⟩ := alloc_data_block_ok ha
    obtain ⟨d2, hw, hq⟩ := bind_ok hq
    rw [pres_pure] at hq
    cases hq
    rw [if_neg (fun hh => absurd hh.2 (by omega))]
    exact ⟨rfl, rfl, by simp [res4Inode, res4SB]; omega⟩
  · rw [if_neg (by omega), if_pos hlt, hind] at hq
    dsimp only at hq
    obtain ⟨t, ha, hq⟩ := bind_ok hq
    obtain ⟨d1, sb1, blk⟩ := t
    obtain ⟨hfree, hzero⟩ := alloc_data_block_ok ha
    rw [pres_pure, pres_bind_ok] at hq
    dsimp only at hq
    rw [show readU32 d1.bytes blk (o / BLOCK_SIZE - NUM_DIRECT_PTRS) = 0 from by
      simp [readU32, hzero]] at hq
    rw [if_pos rfl] at hq
    obtain ⟨t2, ha2, hq⟩ := bind_ok hq
    obtain ⟨d2, sb2, blk2⟩ := t2
    obtain ⟨hfree2, hzero2⟩ := alloc_data_block_ok ha2
    obtain ⟨d3, hw, hq⟩ := bind_ok hq
    rw [pres_pure] at hq
    cases hq
    rw [if_pos ⟨hind, hb⟩]
    exact ⟨rfl, rfl, by simp [res4Inode, res4SB]; omega⟩
  · rw [if_neg (by omega), if_pos hlt, hind] at hq
    dsimp only at hq
    rw [pres_pure, pres_bind_ok] at hq
    dsimp only at hq
    rw [hslot, if_pos rfl] at hq
    obtain ⟨t2, ha2, hq⟩ := bind_ok hq
    obtain ⟨d2, sb2, blk2⟩ := t2
    obtain ⟨hfree2, hzero2⟩ := alloc_data_block_ok ha2
    obtain ⟨d3, hw, hq⟩ := bind_ok hq
    rw [pres_pure] at hq
    cases hq
    rw [if_neg (fun hh => by rw [hind] at hh; exact Option.noConfusion hh.1)]
    exact ⟨rfl, rfl, by simp [res4Inode, res4SB]; omega⟩

/-- Claim C3 counterexample to the original rounding conjunct: writing at
offset `7 * BLOCK_SIZE` into a fresh file sets `size = 3585`, whose
one-block rounding is 8 blocks, but leaves `inode.blocks = 9`. -/
theorem c3_rounding_counterexample :
    (res4Inode c3res).size = 3585 ∧ (res4Inode c3res).blocks = 9 ∧
    ((res4Inode c3res).size + (BLOCK_SIZE - 1)) / BLOCK_SIZE = 8 ∧
    (res4Inode c3res).blocks ≠ ((res4Inode c3res).size + (BLOCK_SIZE - 1)) / BLOCK_SIZE := by
  refine ⟨by decide, by decide, by decide, by decide⟩

/-- Claim C3 witness: the amended theorem at the spec's own example, a
write at offset `7 * BLOCK_SIZE` of a fresh file, which allocates
exactly one data block. -/
theorem c3_witness :
    (res4Inode (bmap c3disk c3sb c3inode (7 * BLOCK_SIZE) true)).size = 7 * BLOCK_SIZE + 1 ∧
    (res4Inode (bmap c3disk c3sb c3inode (7 * BLOCK_SIZE) true)).blocks =
      (7 * BLOCK_SIZE + 1 + (BLOCK_SIZE - 1)) / BLOCK_SIZE + 1 ∧
    c3sb.free_blocks = (res4SB (bmap c3disk c3sb c3inode (7 * BLOCK_SIZE) true)).free_blocks +
      (if c3inode.indirect_ptr = none ∧ NUM_DIRECT_PTRS ≤ 7 * BLOCK_SIZE / BLOCK_SIZE
        then 2 else 1) :=
  c3_bmap_sparse_extension c3disk c3sb c3inode (7 * BLOCK_SIZE) (by decide) (by decide)
    (Or.inl ⟨by decide, by decide⟩) (by decide)

/-- Claim C4 (amended): for every accepted `num_blocks`/`num_inodes` the
layout is packed contiguously with `data_bitmap_start = 1`, but the
bitmap region sizes are `data_bitmap_blocks = ceil(num_blocks / 8)` and
`inode_bitmap_blocks = ceil(num_inodes / 8)` blocks — the source omits
the division by BLOCK_SIZE (its comment calls this "not a precise
calculation") — followed by the inode table
(`ceil(num_inodes / 4)` blocks) and the data region. -/
theorem c4_superblock_layout (nb ni : Nat) (sb2 : SuperBlock)
    (h : SuperBlock.new nb ni = .ok sb2) :
    sb2.data_bitmap_start = 1 ∧
    sb2.data_bitmap_blocks = (nb + 7) / 8 ∧
    sb2.inode_bitmap_start = 1 + (nb + 7) / 8 ∧
    sb2.inode_bitmap_blocks = (ni + 7) / 8 ∧
    sb2.inode_table_start = 1 + (nb + 7) / 8 + (ni + 7) / 8 ∧
    sb2.inode_table_blocks = (ni + 3) / 4 ∧
    sb2.data_start = sb2.inode_table_start + sb2.inode_table_blocks ∧
    sb2.data_start < nb ∧
    sb2.free_blocks + sb2.data_start = nb := by
  unfold SuperBlock.new at h
  split at h
  · cases h
  · dsimp only at h
    split at h
    · cases h
    · rename_i hle
      cases h
      refine ⟨rfl, rfl, rfl, rfl, rfl, rfl, rfl, Nat.lt_of_not_le hle,
        Nat.sub_add_cancel (Nat.le_of_lt (Nat.lt_of_not_le hle))⟩

/-- Claim C4 counterexample: on the accepted input (64, 80) the code
sizes the data bitmap at 8 blocks and the inode bitmap at 10 blocks,
while the claimed `ceil(n / 8 / 512)` formulas give 1 block each. -/
theorem c4_bitmap_sizing_counterexample :
    (SuperBlock.new 64 80).isOk = true ∧
    (sbOf (SuperBlock.new 64 80)).data_bitmap_blocks = 8 ∧
    ((64 + 7) / 8 + (BLOCK_SIZE - 1)) / BLOCK_SIZE = 1 ∧
    (sbOf (SuperBlock.new 64 80)).inode_bitmap_blocks = 10 ∧
    ((80 + 7) / 8 + (BLOCK_SIZE - 1)) / BLOCK_SIZE = 1 ∧
    (sbOf (SuperBlock.new 64 80)).data_bitmap_blocks ≠ 1 := by
  refine ⟨by decide, by decide, by decide, by decide, by decide, by decide⟩

/-- Claim C4 witness: the amended layout theorem at the concrete accepted
input (64, 80). -/
theorem c4_witness :
    sb64.data_bitmap_start = 1 ∧
    sb64.data_bitmap_blocks = (64 + 7) / 8 ∧
    sb64.inode_bitmap_start = 1 + (64 + 7) / 8 ∧
    sb64.inode_bitmap_blocks = (80 + 7) / 8 ∧
    sb64.inode_table_start = 1 + (64 + 7) / 8 + (80 + 7) / 8 ∧
    sb64.inode_table_blocks = (80 + 3) / 4 ∧
    sb64.data_start = sb64.inode_table_start + sb64.inode_table_blocks ∧
    sb64.data_start < 64 ∧
    sb64.free_blocks + sb64.data_start = 64 :=
  c4_superblock_layout 64 80 sb64 rfl

/-- Claim C5 (amended): a successful `dir_add_entry` always grows
`parent.size` by exactly DIR_ENTRY_SIZE — including when it reuses a
tombstone slot — and a successful `dir_rm_entry` always shrinks it by
exactly DIR_ENTRY_SIZE; `size` therefore stays a multiple of
DIR_ENTRY_SIZE and counts the live entries, not the slots up to the
high-water mark. -/
theorem c5_dir_size_delta :
    (∀ (d : Disk) (sb : SuperBlock) (p : Inode) (e : DirEntry)
        (d2 : Disk) (sb2 : SuperBlock) (p2 : Inode),
        p.size % DIR_ENTRY_SIZE = 0 → dir_add_entry d sb p e = .ok (d2, sb2, p2) →
        p2.size = p.size + DIR_ENTRY_SIZE) ∧
    (∀ (d : Disk) (sb : SuperBlock) (p : Inode) (name : List Nat)
        (d2 : Disk) (sb2 : SuperBlock) (p2 : Inode) (rid : Nat),
        dir_rm_entry d sb p name = .ok (d2, sb2, p2, rid) →
        p2.size + DIR_ENTRY_SIZE = p.size) :=
  ⟨fun _ _ _ _ _ _ _ h64 h => dir_add_entry_size h64 h,
   fun _ _ _ _ _ _ _ _ h => dir_rm_entry_size h⟩

/-- Claim C5 counterexample: inserting into a directory of size 128 whose
slot 1 is a tombstone reuses that slot (the new entry lands in slot 1 of
the same block and no block is allocated) yet `parent.size` grows to
192, where the claim required it to stay 128. -/
theorem c5_tombstone_counterexample :
    c5parent.size = 128 ∧
    (readDirEntry c5disk.bytes 40 1).is_empty = true ∧
    c5res.isOk = true ∧
    (readDirEntry (res3Disk c5res).bytes 40 1).inode_id = 6 ∧
    (res3SB c5res).free_blocks = c5sb.free_blocks ∧
    (res3Inode c5res).size = 192 := by
  refine ⟨by decide, by decide, by decide, by decide, by decide, by decide⟩

/-- Claim C5 witness: the amended theorem at the concrete tombstone-reuse
insertion and at a concrete removal. -/
theorem c5_witness :
    (res3Inode c5res).size = c5parent.size + DIR_ENTRY_SIZE ∧
    (res4Inode c5rm).size + DIR_ENTRY_SIZE = c5parent.size := by
  constructor
  · exact c5_dir_size_delta.1 c5disk c5sb c5parent (mkEntry 6 "e")
      (res3Disk c5res) (res3SB c5res) (res3Inode c5res) (by decide) rfl
  · exact c5_dir_size_delta.2 c5disk c5sb c5parent (strName "a")
      (res4Disk c5rm) (res4SB c5rm) (res4Inode c5rm) (res4Val c5rm) rfl

/-- Claim C6: the claim says `fread` at any `offset ≥ inode.size` returns
`Ok(0)` and that the per-iteration byte-count computation is total.  At
`offset = inode.size` the code does return `Ok` with 0 bytes, but for
`offset > inode.size` (here the spec's own scenario: a 13-byte file read
at `8 * BLOCK_SIZE` with a 20-byte buffer) the usize computation
`inode.size - bytes_read - offset` underflows and panics under the
overflow checks the crate's tests build with. -/
theorem c6_fread_past_eof_panics :
    (fread c6disk c6sb c6inode (8 * BLOCK_SIZE) (List.replicate 20 0)).isPanicked = true ∧
    (fread c6disk c6sb c6inode 13 (List.replicate 20 0)).isOk = true ∧
    res5Count (fread c6disk c6sb c6inode 13 (List.replicate 20 0)) = 0 := by
  refine ⟨by decide, by decide, by decide⟩

/-- Claim C7 (amended): `FileSystem::fread` passes the permission check
exactly for the modes Read, RW and RWE and fails with PermissionDenied
for every other mode — including RE, which contains the read capability
but is missing from the source's `matches!` pattern. Shown on a
one-byte file `/f` whose mode ranges over all seven modes. -/
theorem c7_fread_permission :
    ∀ m : Mode,
      (c7res m).errOf =
        (if m = .Read ∨ m = .RW ∨ m = .RWE then none else some .PermissionDenied) ∧
      frBytes (c7res m) = (if m = .Read ∨ m = .RW ∨ m = .RWE then (1, [72]) else (0, [])) := by
  intro m
  cases m <;> exact ⟨by decide, by decide⟩

/-- Claim C7 counterexample: a Regular file with mode RE — which contains
the read capability — is refused by `FileSystem::fread` with
PermissionDenied, where the claim said RE passes. -/
theorem c7_re_denied : (c7res .RE).errOf = some .PermissionDenied := by decide

/-- Claim C8: `canonicalize` terminates on every input path — its loop
never exhausts the fuel bound because every symlink expansion increments
the link-depth counter, which is cut off at SYMLOOP_MAX, and every other
iteration shortens the component queue — and resolving through the
symlink cycle `a -> /b`, `b -> /a` fails with PathTooLong.  (The bound
63 on a symlink target's component count is implied by the on-disk
MAX_PATH_LEN = 104-byte target buffer.) -/
theorem c8_canonicalize_termination :
    (∀ (d : Disk) (sb : SuperBlock) (path : String) (flag : Bool),
        (∀ i, symComps d i ≤ 63) → canonicalize d sb path flag ≠ .nofuel) ∧
    canonicalize c8disk c8sb "/a" false = .err .PathTooLong := by
  constructor
  · intro d sb path flag h63
    exact canonicalize_ne_nofuel d sb path flag 63 h63 (by omega)
  · decide

/-- Claim C8 witness: the termination bound applied to the concrete
cycle state, together with its PathTooLong outcome. -/
theorem c8_witness :
    canonicalize c8disk c8sb "/a" false ≠ .nofuel ∧
    canonicalize c8disk c8sb "/a" false = .err .PathTooLong := by
  constructor
  · refine c8_canonicalize_termination.1 c8disk c8sb "/a" false ?_
    intro i
    by_cases h0 : i = 0
    · subst h0; decide
    · by_cases h2 : i = 2
      · subst h2; decide
      · by_cases h3 : i = 3
        · subst h3; decide
        · simp [symComps, c8disk, h0, h2, h3]
          decide
  · exact c8_canonicalize_termination.2

/-- Claim C9: a hard link survives removal of its source path.  On a
state with `/a.txt` (inode 2, content `Hello, hard link!`) and directory
`/d`, running `link("/a.txt", "/d/b.txt")` then
`remove("/a.txt", Regular)` leaves `/d/b.txt` resolving to the Regular
inode 2 with `links_cnt = 1`; reading it returns the original bytes; the
inode is still allocated (bitmap bit set, `free_inodes` unchanged), and
only the second removal — which drops `links_cnt` to 0 — frees it. -/
theorem c9_hard_link_survives :
    c9s1.isOk = true ∧
    c9s2.isOk = true ∧
    c9s3 = .ok (2, .Regular) ∧
    (c9d2.inodes 2).links_cnt = 1 ∧
    frBytes c9s4 = (17, c9content) ∧
    c9d2.inodeBitmap 2 = true ∧
    c9sb2.free_inodes = 77 ∧
    c9s5.isOk = true ∧
    (rwDisk c9s5).inodeBitmap 2 = false ∧
    (rwSB c9s5).free_inodes = 78 := by
  refine ⟨by decide, by decide, by decide, by decide, by decide, by decide, by decide,
    by decide, by decide, by decide⟩

/-- Claim C10 (amended): for every block id below `data_start` the
relative-id computation `block_id - data_start` underflows the unsigned
subtraction, so under the overflow-checked semantics the crate's tests
build with, `free_data_block` panics there — before the bounds test that
would have returned OutOfBounds — leaving the data bitmap and
`free_blocks` untouched.  (A wrapping release build would instead take
the short-circuited bounds test and return OutOfBounds.) -/
theorem c10_free_data_block_underflow (d : Disk) (sb : SuperBlock) (bid : Nat)
    (h : bid < sb.data_start) : free_data_block d sb bid = .panicked := by
  unfold free_data_block
  rw [subU_lt h, pres_bind_panicked]

/-- Claim C10 counterexample: freeing block 0 (the superblock) on the
(64, 80) layout with `data_start = 39` does not return the OutOfBounds
error the claim promised — the underflowing subtraction panics first. -/
theorem c10_counterexample :
    sb64.data_start = 39 ∧
    (free_data_block DISK0 sb64 0).isPanicked = true ∧
    (free_data_block DISK0 sb64 0).errOf = none := by
  refine ⟨by decide, by decide, by decide⟩

/-- Claim C10 witness: the amended theorem at block id 5 of the (64, 80)
layout. -/
theorem c10_witness : free_data_block DISK0 sb64 5 = .panicked :=
  c10_free_data_block_underflow DISK0 sb64 5 (by decide)

end Muon
